import Mathlib

/-!
Shallow embedding of the FeedTAXII2 integration adapter
(`Packs/FeedTAXII/Integrations/FeedTAXII2/FeedTAXII2.py`).

The adapter delegates all protocol work to the external `Taxii2FeedClient`
(TAXII2ApiModule) and to host-platform library functions (`parse_date_range`,
`tableToMarkdown`, the integration-context store).  Those collaborators are not
part of the adapter file; they are modelled here from the specification's
description of their interfaces.  Everything else is translated directly from
the Python source:

* `try_parse_integer`            — FeedTAXII2.py lines 15-25
* `fetch_indicators_command`     — lines 38-72 (the per-collection loop is
  `fetchLoop`, one Python iteration per `fetchStep`)
* `get_indicators_command`       — lines 75-120 (loop is `getLoop`, the output
  shaping is `shapeOutput`)
* `reset_fetch_command`          — lines 141-149
* `runCommandCtx`                — the integration-context handling of `main`,
  lines 152-203

Wire-format timestamps are abstracted as natural time points (`Timestamp`);
their order mirrors the chronological order of TAXII timestamp strings, and
`parse_date_range` results are taken as already-parsed `Timestamp` values.
Python falsy timestamp values (`None`, the empty string) are `Option.none`.
-/

set_option autoImplicit false

/-- Abstract wire-format time point; ordering mirrors chronological order of
TAXII timestamp strings. -/
abbrev Timestamp := Nat

/-- A TAXII collection as exposed by the external client: a stable id and a
title. -/
structure Collection where
  id : String
  title : String
  deriving DecidableEq

/-- An indicator in the platform shape: per spec section 6 it carries at least
a value, a type and a raw wire-format payload field (`rawJSON`, absent keys
modelled as `none`); `created` is the creation timestamp the cursor logic
tracks. -/
structure Indicator where
  value : String
  type_ : String
  rawJSON : Option String
  created : Timestamp
  deriving DecidableEq

/-- The persisted per-collection cursor mapping (`last_run_ctx`, integration
context): an insertion-ordered association list mirroring the Python dict from
collection id to stored timestamp.  A stored Python-falsy value is `none`. -/
abbrev Ctx := List (String × Option Timestamp)

/-- Python `collection.id in last_run_ctx` / `last_run_ctx[collection.id]`:
lookup in the insertion-ordered dict. -/
def ctxFind : Ctx → String → Option (Option Timestamp)
  | [], _ => none
  | (k, v) :: rest, key => if k = key then some v else ctxFind rest key

/-- Python `last_run_ctx[collection.id] = v`: dict assignment, updating in
place when the key exists and appending otherwise. -/
def ctxSet : Ctx → String → Option Timestamp → Ctx
  | [], key, v => [(key, v)]
  | (k, w) :: rest, key, v =>
    if k = key then (key, v) :: rest else (k, w) :: ctxSet rest key v

/-- Most recent creation timestamp of a list of indicators, folded from `acc`. -/
def maxCreated : List Indicator → Timestamp → Timestamp
  | [], acc => acc
  | i :: rest, acc => maxCreated rest (max acc i.created)

/-- Modelled from the spec: the external `Taxii2FeedClient` (TAXII2ApiModule,
not part of the adapter file).  `collections` is the resolved collection list
(`none` when the client could not resolve one), `collection_to_fetch` the
optional pinned collection, `latest_fetched_indicator_created` the most recent
fetched indicator's creation timestamp the client exposes, and `fetchFn`
abstracts the server: the indicators the client's `build_iterator` yields for
a collection id, a limit and an `added_after` bound. -/
structure Client where
  collections : Option (List Collection)
  collection_to_fetch : Option Collection
  latest_fetched_indicator_created : Option Timestamp
  fetchFn : String → Int → Option Timestamp → List Indicator

/-- Modelled from the spec: the external client's `build_iterator` fetches the
indicators of the currently selected collection and updates
`latest_fetched_indicator_created` to the most recent creation timestamp among
the fetched indicators, leaving it unchanged when nothing was fetched.  (That
it returns at most `limit` indicators for a non-negative `limit` is stated as
an explicit hypothesis where a theorem needs it, not baked in.) -/
def build_iterator (c : Client) (limit : Int) (added_after : Option Timestamp) :
    List Indicator × Client :=
  let iocs :=
    match c.collection_to_fetch with
    | some col => c.fetchFn col.id limit added_after
    | none => []
  let latest :=
    if iocs.isEmpty then c.latest_fetched_indicator_created
    else some (maxCreated iocs 0)
  (iocs, { c with latest_fetched_indicator_created := latest })

/-- Modelled from the spec: `ERR_NO_COLL`, the configuration-error message
defined in the external client module and raised when no collections are
available to fetch from. -/
def ERR_NO_COLL : String := "No collection is available for this user"

/-- FeedTAXII2.py line 10. -/
def CONTEXT_PREFIX : String := "TAXII2"

/-- FeedTAXII2.py lines 55 and 64-66: the `added_after` bound used for a
collection is its persisted cursor when one exists and the parsed initial
interval otherwise. -/
def selectAddedAfter (ctx : Ctx) (cid : String) (initial : Timestamp) :
    Option Timestamp :=
  match ctxFind ctx cid with
  | some v => v
  | none => some initial

/-- One iteration of the fetch-all loop body, lines 54-56: select the
collection on the client and run `build_iterator` with the cursor-or-initial
bound. -/
def fetchStep (initial : Timestamp) (c : Client) (col : Collection)
    (limit : Int) (ctx : Ctx) : List Indicator × Client :=
  build_iterator { c with collection_to_fetch := some col } limit
    (selectAddedAfter ctx col.id initial)

/-- The fetch-all loop of `fetch_indicators_command`, lines 53-62.  The Python
`break` fires when `limit >= 0` and the decremented limit is `<= 0`; it exits
before line 62, so the breaking collection's cursor entry is not written.
Otherwise the cursor entry is set to the client's
`latest_fetched_indicator_created` and the limit is decremented only when it
was non-negative. -/
def fetchLoop (initial : Timestamp) :
    Client → List Collection → Int → Ctx → List Indicator →
      List Indicator × Ctx × Client
  | c, [], _limit, ctx, acc => (acc, ctx, c)
  | c, col :: rest, limit, ctx, acc =>
    if 0 ≤ limit ∧ limit - ((fetchStep initial c col limit ctx).1.length : Int) ≤ 0 then
      (acc ++ (fetchStep initial c col limit ctx).1, ctx,
        (fetchStep initial c col limit ctx).2)
    else
      fetchLoop initial (fetchStep initial c col limit ctx).2 rest
        (if 0 ≤ limit then limit - ((fetchStep initial c col limit ctx).1.length : Int)
         else limit)
        (ctxSet ctx col.id
          ((fetchStep initial c col limit ctx).2).latest_fetched_indicator_created)
        (acc ++ (fetchStep initial c col limit ctx).1)

/-- `fetch_indicators_command`, lines 38-72.  `initial_interval` is the value
`parse_date_range` produced.  In pinned mode (lines 63-71) the cursor entry is
the client's `latest_fetched_indicator_created` when truthy and the
`added_after` bound otherwise.  A raised `DemistoException` is `Except.error`. -/
def fetch_indicators_command (c : Client) (initial_interval : Timestamp)
    (limit : Int) (last_run_ctx : Ctx) :
    Except String (List Indicator × Ctx × Client) :=
  match c.collection_to_fetch with
  | none =>
    match c.collections with
    | none => Except.error ERR_NO_COLL
    | some cols =>
      Except.ok (fetchLoop initial_interval c cols limit last_run_ctx [])
  | some col =>
    Except.ok
      ((build_iterator c limit (selectAddedAfter last_run_ctx col.id initial_interval)).1,
        ctxSet last_run_ctx col.id
          (match (build_iterator c limit
              (selectAddedAfter last_run_ctx col.id initial_interval)).2.latest_fetched_indicator_created with
            | some t => some t
            | none => selectAddedAfter last_run_ctx col.id initial_interval),
        (build_iterator c limit (selectAddedAfter last_run_ctx col.id initial_interval)).2)

/-- A Python value handed to `try_parse_integer`: a string, an int, or `None`. -/
inductive IntArg where
  | str (s : String)
  | int_ (n : Int)
  | none_
  deriving DecidableEq

/-- Nonempty all-digit character list to its decimal value, else `none`. -/
def parseDigits (l : List Char) : Option Nat :=
  if l ≠ [] ∧ l.all Char.isDigit then
    some (l.foldl (fun acc ch => 10 * acc + (ch.toNat - 48)) 0)
  else none

/-- Python `int` on a string: surrounding whitespace stripped, optional sign,
nonempty run of decimal digits (underscore separators not modelled). -/
def parseIntString (s : String) : Option Int :=
  match ((s.toList.dropWhile Char.isWhitespace).reverse.dropWhile Char.isWhitespace).reverse with
  | [] => none
  | ch :: rest =>
    if ch = '-' then (parseDigits rest).map (fun n => -(n : Int))
    else if ch = '+' then (parseDigits rest).map (fun n => (n : Int))
    else (parseDigits (ch :: rest)).map (fun n => (n : Int))

/-- Python `int(x)` on the argument values the adapter passes: `some` is the
returned integer, `none` a raised `TypeError`/`ValueError`. -/
def pythonInt : IntArg → Option Int
  | IntArg.str s => parseIntString s
  | IntArg.int_ n => some n
  | IntArg.none_ => none

/-- `try_parse_integer`, lines 15-25: return `int(x)`, turning a
`TypeError`/`ValueError` into a `DemistoException` with `err_msg`. -/
def try_parse_integer (int_to_parse : IntArg) (err_msg : String) :
    Except String Int :=
  match pythonInt int_to_parse with
  | some res => Except.ok res
  | none => Except.error err_msg

/-- The `raw` argument of `get_indicators_command`: a string or a Python bool. -/
inductive RawArg where
  | str (s : String)
  | pybool (b : Bool)
  deriving DecidableEq

/-- Line 87, `raw = raw == "true"`: Python equality of the argument with the
exact string `"true"` (a bool compares unequal to any string). -/
def rawIsTrue : RawArg → Bool
  | RawArg.str s => s == "true"
  | RawArg.pybool _ => false

/-- Modelled from the spec: one cell of the host library's `tableToMarkdown`
output for the headers the adapter uses. -/
def cellOf (i : Indicator) (h : String) : String :=
  if h == "value" then i.value else if h == "type" then i.type_ else ""

/-- Modelled from the spec: the host library's `tableToMarkdown`, abstracted to
a deterministic serialisation of the named columns; the adapter only threads
the produced string through as opaque human-readable output. -/
def tableToMarkdown (title : String) (rows : List Indicator)
    (headers : List String) : String :=
  title ++ "\n|" ++ String.intercalate "|" headers ++ "|\n" ++
    String.intercalate "\n"
      (rows.map (fun i => "|" ++ String.intercalate "|" (headers.map (cellOf i)) ++ "|"))

/-- The command-result record built at lines 114-119. -/
structure CommandResults where
  outputs_prefix : String
  outputs_key_field : String
  outputs : List Indicator
  readable_output : String
  deriving DecidableEq

/-- What `get_indicators_command` hands back to the host: the raw payload list
sent through `demisto.results` (line 107), a structured `CommandResults`
(lines 114-119), or the bare markdown string (line 120). -/
inductive GetIndicatorsOutput where
  | raw (indicators : List (Option String))
  | results (cr : CommandResults)
  | markdown (md : String)
  deriving DecidableEq

/-- Line 110: the human-readable output string. -/
def mdOf (indicators : List Indicator) : String :=
  "Found " ++ toString indicators.length ++ " results:\n" ++
    tableToMarkdown "" indicators ["value", "type"]

/-- Lines 106-120: output shaping of `get_indicators_command` once the
indicator list is known. -/
def shapeOutput (isRaw : Bool) (indicators : List Indicator) :
    GetIndicatorsOutput :=
  if isRaw then GetIndicatorsOutput.raw (indicators.map Indicator.rawJSON)
  else if indicators.isEmpty then GetIndicatorsOutput.markdown (mdOf indicators)
  else
    GetIndicatorsOutput.results
      { outputs_prefix := CONTEXT_PREFIX ++ ".Indicators"
        outputs_key_field := "value"
        outputs := indicators
        readable_output := mdOf indicators }

/-- One iteration of the `get_indicators_command` fetch-all loop body, lines
95-96. -/
def getStep (aa : Option Timestamp) (c : Client) (col : Collection)
    (limit : Int) : List Indicator × Client :=
  build_iterator { c with collection_to_fetch := some col } limit aa

/-- The fetch-all loop of `get_indicators_command`, lines 94-101: as
`fetchLoop` but with a fixed `added_after` argument and no cursor writes. -/
def getLoop (aa : Option Timestamp) :
    Client → List Collection → Int → List Indicator → List Indicator × Client
  | c, [], _limit, acc => (acc, c)
  | c, col :: rest, limit, acc =>
    if 0 ≤ limit ∧ limit - ((getStep aa c col limit).1.length : Int) ≤ 0 then
      (acc ++ (getStep aa c col limit).1, (getStep aa c col limit).2)
    else
      getLoop aa (getStep aa c col limit).2 rest
        (if 0 ≤ limit then limit - ((getStep aa c col limit).1.length : Int)
         else limit)
        (acc ++ (getStep aa c col limit).1)

/-- Lines 89-104: the indicator list `get_indicators_command` accumulates
before shaping (the `added_after` argument is the `parse_date_range` result
when the caller supplied one). -/
def getIndicatorsList (c : Client) (limit : Int) (added_after : Option Timestamp) :
    Except String (List Indicator) :=
  match c.collection_to_fetch with
  | none =>
    match c.collections with
    | none => Except.error ERR_NO_COLL
    | some cols => Except.ok (getLoop added_after c cols limit []).1
  | some _ => Except.ok (build_iterator c limit added_after).1

/-- `get_indicators_command`, lines 75-120. -/
def get_indicators_command (c : Client) (raw : RawArg) (limitArg : IntArg)
    (added_after : Option Timestamp) : Except String GetIndicatorsOutput :=
  match try_parse_integer limitArg "Please provide a valid limit (positive integer)" with
  | Except.error e => Except.error e
  | Except.ok limit =>
    match getIndicatorsList c limit added_after with
    | Except.error e => Except.error e
    | Except.ok indicators =>
      Except.ok (shapeOutput (rawIsTrue raw) indicators)

/-- `reset_fetch_command`, lines 141-149: the integration context it persists
and the status message it returns. -/
def reset_fetch_command : Ctx × String :=
  ([],
    "Fetch was reset successfully. Your next indicator fetch will collect indicators from " ++
      "the configured \"First Fetch Time\"")

/-- The command surface dispatched by `main`, lines 171-193. -/
inductive Command where
  | fetchIndicators (initial_interval : Timestamp) (limit : Int)
  | getIndicators (raw : RawArg) (limitArg : IntArg) (added_after : Option Timestamp)
  | getCollections
  | resetFetch
  | testModule

/-- The integration context `main` leaves persisted after running a command
(lines 177-193): only the `fetch-indicators` branch writes the context
returned by `fetch_indicators_command` (and leaves it untouched when the
command raises), only `taxii2-reset-fetch-indicators` clears it; no other
branch reads or writes it. -/
def runCommandCtx (c : Client) (cmd : Command) (ctx : Ctx) : Ctx :=
  match cmd with
  | Command.fetchIndicators initial limit =>
    match fetch_indicators_command c initial limit ctx with
    | Except.ok r => r.2.1
    | Except.error _ => ctx
  | Command.getIndicators raw limitArg added_after =>
    let _unused := get_indicators_command c raw limitArg added_after
    ctx
  | Command.getCollections => ctx
  | Command.resetFetch => (reset_fetch_command).1
  | Command.testModule => ctx

/-- The `added_after` selection as the specification's claim C3 words it: the
later (maximum) of the persisted cursor and the initial interval.  Stated for
comparison with `selectAddedAfter`, which is translated from the source. -/
def selectAddedAfterSpec (ctx : Ctx) (cid : String) (initial : Timestamp) :
    Option Timestamp :=
  match ctxFind ctx cid with
  | some (some t) => some (max t initial)
  | some none => some initial
  | none => some initial

/-! ## Concrete instances used by counterexamples and witnesses -/

/-- A concrete indicator with creation timestamp 10. -/
def indA : Indicator :=
  { value := "v", type_ := "ip", rawJSON := some "rawA", created := 10 }

/-- A concrete collection with id `c`. -/
def colC : Collection := { id := "c", title := "c" }

/-- A concrete collection with id `A`. -/
def colA : Collection := { id := "A", title := "A" }

/-- A concrete collection with id `B`. -/
def colB : Collection := { id := "B", title := "B" }

/-- Fetch-all client over collections `A` and `B`; the server yields `indA`
for `A` and nothing for `B`. -/
def clC1 : Client :=
  { collections := some [colA, colB]
    collection_to_fetch := none
    latest_fetched_indicator_created := none
    fetchFn := fun cid _ _ => if cid = "A" then [indA] else [] }

/-- Pinned-collection client whose server always yields `indA`. -/
def clPin : Client :=
  { collections := none
    collection_to_fetch := some colC
    latest_fetched_indicator_created := none
    fetchFn := fun _ _ _ => [indA] }

/-- Pinned-collection client whose server yields `indA` exactly for the
`added_after` bound `some 1` (a persisted cursor earlier than the initial
interval) and nothing otherwise. -/
def clPinEarly : Client :=
  { collections := none
    collection_to_fetch := some colC
    latest_fetched_indicator_created := none
    fetchFn := fun _ _ aa => if aa = some 1 then [indA] else [] }

/-- Pinned-collection client whose server yields nothing. -/
def clEmpty : Client :=
  { collections := none
    collection_to_fetch := some colC
    latest_fetched_indicator_created := none
    fetchFn := fun _ _ _ => [] }

/-- Fetch-all client over collection `A` whose server yields a prefix of
`[indA]` of length at most the requested limit. -/
def clLim : Client :=
  { collections := some [colA]
    collection_to_fetch := none
    latest_fetched_indicator_created := none
    fetchFn := fun _ l _ => List.take l.toNat [indA] }

/-- Fetch-all client with an unresolved collection list. -/
def clNoColl : Client :=
  { collections := none
    collection_to_fetch := none
    latest_fetched_indicator_created := none
    fetchFn := fun _ _ _ => [] }

/-- The client state after `clLim` fetched collection `A` with limit 1. -/
def clLimAfter : Client :=
  { collections := some [colA]
    collection_to_fetch := some colA
    latest_fetched_indicator_created := some 10
    fetchFn := clLim.fetchFn }

/-! ## Helper lemmas -/

theorem le_maxCreated (l : List Indicator) : ∀ acc : Timestamp, acc ≤ maxCreated l acc := by
  induction l with
  | nil => intro acc; exact Nat.le_refl acc
  | cons a t ih =>
    intro acc
    exact le_trans (le_max_left acc a.created) (ih (max acc a.created))

theorem created_le_maxCreated (l : List Indicator) :
    ∀ (acc : Timestamp) (i : Indicator), i ∈ l → i.created ≤ maxCreated l acc := by
  induction l with
  | nil => intro acc i hi; cases hi
  | cons a t ih =>
    intro acc i hi
    rcases List.mem_cons.mp hi with h | h
    · subst h
      exact le_trans (le_max_right acc i.created) (le_maxCreated t (max acc i.created))
    · exact ih (max acc a.created) i h

theorem maxCreated_eq_acc_or_mem (l : List Indicator) :
    ∀ acc : Timestamp, maxCreated l acc = acc ∨ ∃ i ∈ l, maxCreated l acc = i.created := by
  induction l with
  | nil => intro acc; exact Or.inl rfl
  | cons a t ih =>
    intro acc
    have hunfold : maxCreated (a :: t) acc = maxCreated t (max acc a.created) := rfl
    rcases ih (max acc a.created) with h | ⟨i, hi, h⟩
    · by_cases hc : a.created ≤ acc
      · left
        rw [hunfold, h, max_eq_left hc]
      · right
        refine ⟨a, List.mem_cons_self a t, ?_⟩
        rw [hunfold, h, max_eq_right (le_of_not_le hc)]
    · right
      exact ⟨i, List.mem_cons_of_mem a hi, by rw [hunfold]; exact h⟩

theorem fetchStep_fst (initial : Timestamp) (c : Client) (col : Collection)
    (limit : Int) (ctx : Ctx) :
    (fetchStep initial c col limit ctx).1 =
      c.fetchFn col.id limit (selectAddedAfter ctx col.id initial) := rfl

theorem fetchStep_snd_fetchFn (initial : Timestamp) (c : Client) (col : Collection)
    (limit : Int) (ctx : Ctx) :
    (fetchStep initial c col limit ctx).2.fetchFn = c.fetchFn := rfl

theorem fetchLoop_length_le (cols : List Collection) :
    ∀ (initial : Timestamp) (c : Client) (limit : Int) (ctx : Ctx) (acc : List Indicator),
    0 ≤ limit →
    (∀ (cid : String) (l : Int) (aa : Option Timestamp), 0 ≤ l →
      ((c.fetchFn cid l aa).length : Int) ≤ l) →
    (((fetchLoop initial c cols limit ctx acc).1.length : Int)) ≤ (acc.length : Int) + limit := by
  induction cols with
  | nil =>
    intro initial c limit ctx acc h0 _hF
    simp only [fetchLoop]
    omega
  | cons col rest ih =>
    intro initial c limit ctx acc h0 hF
    have hlen : (((fetchStep initial c col limit ctx).1.length : Int)) ≤ limit := by
      rw [fetchStep_fst]
      exact hF col.id limit (selectAddedAfter ctx col.id initial) h0
    by_cases hbr : 0 ≤ limit ∧ limit - ((fetchStep initial c col limit ctx).1.length : Int) ≤ 0
    · simp only [fetchLoop, if_pos hbr, List.length_append]
      push_cast
      omega
    · simp only [fetchLoop, if_neg hbr, if_pos h0]
      have h0' : 0 ≤ limit - ((fetchStep initial c col limit ctx).1.length : Int) := by
        rcases not_and_or.mp hbr with h | h
        · exact absurd h0 h
        · omega
      have hF' : ∀ (cid : String) (l : Int) (aa : Option Timestamp), 0 ≤ l →
          (((fetchStep initial c col limit ctx).2.fetchFn cid l aa).length : Int) ≤ l := by
        intro cid l aa hl
        rw [fetchStep_snd_fetchFn]
        exact hF cid l aa hl
      have := ih initial (fetchStep initial c col limit ctx).2
        (limit - ((fetchStep initial c col limit ctx).1.length : Int))
        (ctxSet ctx col.id
          ((fetchStep initial c col limit ctx).2).latest_fetched_indicator_created)
        (acc ++ (fetchStep initial c col limit ctx).1) h0' hF'
      simp only [List.length_append] at this
      push_cast at this
      omega

theorem fetchLoop_fst_extends (cols : List Collection) :
    ∀ (initial : Timestamp) (c : Client) (limit : Int) (ctx : Ctx) (acc : List Indicator),
    ∃ t, (fetchLoop initial c cols limit ctx acc).1 = acc ++ t := by
  induction cols with
  | nil =>
    intro initial c limit ctx acc
    exact ⟨[], by simp [fetchLoop]⟩
  | cons col rest ih =>
    intro initial c limit ctx acc
    by_cases hbr : 0 ≤ limit ∧ limit - ((fetchStep initial c col limit ctx).1.length : Int) ≤ 0
    · exact ⟨(fetchStep initial c col limit ctx).1, by simp only [fetchLoop, if_pos hbr]⟩
    · obtain ⟨t, ht⟩ := ih initial (fetchStep initial c col limit ctx).2
        (if 0 ≤ limit then limit - ((fetchStep initial c col limit ctx).1.length : Int)
         else limit)
        (ctxSet ctx col.id
          ((fetchStep initial c col limit ctx).2).latest_fetched_indicator_created)
        (acc ++ (fetchStep initial c col limit ctx).1)
      refine ⟨(fetchStep initial c col limit ctx).1 ++ t, ?_⟩
      simp only [fetchLoop, if_neg hbr]
      rw [ht, List.append_assoc]

theorem fetchLoop_head_prefix (initial : Timestamp) (c : Client) (col : Collection)
    (rest : List Collection) (limit : Int) (ctx : Ctx) (acc : List Indicator) :
    ∃ t, (fetchLoop initial c (col :: rest) limit ctx acc).1 =
      acc ++ c.fetchFn col.id limit (selectAddedAfter ctx col.id initial) ++ t := by
  by_cases hbr : 0 ≤ limit ∧ limit - ((fetchStep initial c col limit ctx).1.length : Int) ≤ 0
  · refine ⟨[], ?_⟩
    simp only [fetchLoop]
    rw [if_pos hbr]
    simp [fetchStep_fst]
  · obtain ⟨t, ht⟩ := fetchLoop_fst_extends rest initial (fetchStep initial c col limit ctx).2
      (if 0 ≤ limit then limit - ((fetchStep initial c col limit ctx).1.length : Int)
       else limit)
      (ctxSet ctx col.id
        ((fetchStep initial c col limit ctx).2).latest_fetched_indicator_created)
      (acc ++ (fetchStep initial c col limit ctx).1)
    refine ⟨t, ?_⟩
    simp only [fetchLoop, if_neg hbr]
    rw [ht, fetchStep_fst, List.append_assoc]

/-! ## Claim theorems -/

/-- C1 (amended): In single-collection (pinned) mode, when the client starts a
cycle with no latest-fetched timestamp, the cursor entry written for the
pinned collection is the maximum creation timestamp among the fetched
indicators, and the unchanged `added_after` bound (prior cursor, or the
initial interval when none existed) when the fetch yielded nothing;
`maxCreated` is indeed the maximum (an upper bound attained by a fetched
indicator).  In fetch-all mode the code instead stores the client's
cycle-wide `latest_fetched_indicator_created`: a collection whose fetch
yielded nothing (shown here for an unbounded limit) has its cursor entry
overwritten with the latest timestamp the client already held from earlier
collections, not left at its prior value. -/
theorem C1_cursor_update (c : Client) (col : Collection) (initial : Timestamp)
    (limit : Int) (ctx : Ctx) :
    (c.collection_to_fetch = some col →
      c.latest_fetched_indicator_created = none →
      fetch_indicators_command c initial limit ctx =
        Except.ok (c.fetchFn col.id limit (selectAddedAfter ctx col.id initial),
          ctxSet ctx col.id
            (if (c.fetchFn col.id limit (selectAddedAfter ctx col.id initial)).isEmpty
             then selectAddedAfter ctx col.id initial
             else some (maxCreated (c.fetchFn col.id limit (selectAddedAfter ctx col.id initial)) 0)),
          (build_iterator c limit (selectAddedAfter ctx col.id initial)).2))
    ∧ (∀ i ∈ c.fetchFn col.id limit (selectAddedAfter ctx col.id initial),
        i.created ≤ maxCreated (c.fetchFn col.id limit (selectAddedAfter ctx col.id initial)) 0)
    ∧ (maxCreated (c.fetchFn col.id limit (selectAddedAfter ctx col.id initial)) 0 = 0 ∨
        ∃ i ∈ c.fetchFn col.id limit (selectAddedAfter ctx col.id initial),
          maxCreated (c.fetchFn col.id limit (selectAddedAfter ctx col.id initial)) 0 = i.created)
    ∧ (∀ (rest : List Collection) (acc : List Indicator), limit < 0 →
        c.fetchFn col.id limit (selectAddedAfter ctx col.id initial) = [] →
        fetchLoop initial c (col :: rest) limit ctx acc =
          fetchLoop initial { c with collection_to_fetch := some col } rest limit
            (ctxSet ctx col.id c.latest_fetched_indicator_created) acc) := by
  refine ⟨?_, ?_, ?_, ?_⟩
  · intro h hl
    by_cases hE : (c.fetchFn col.id limit (selectAddedAfter ctx col.id initial)).isEmpty
    · simp [fetch_indicators_command, build_iterator, h, hl, hE]
    · simp [fetch_indicators_command, build_iterator, h, hl, hE]
  · intro i hi
    exact created_le_maxCreated _ 0 i hi
  · exact maxCreated_eq_acc_or_mem _ 0
  · intro rest acc hneg hempty
    have hbr : ¬(0 ≤ limit ∧
        limit - ((fetchStep initial c col limit ctx).1.length : Int) ≤ 0) := by
      intro hcontra
      omega
    simp only [fetchLoop]
    rw [if_neg hbr, if_neg (by omega : ¬0 ≤ limit)]
    have hstep1 : (fetchStep initial c col limit ctx).1 = [] := by
      rw [fetchStep_fst]; exact hempty
    have hstep2 : (fetchStep initial c col limit ctx).2 =
        { c with collection_to_fetch := some col } := by
      simp [fetchStep, build_iterator, hempty]
    rw [hstep1, hstep2, List.append_nil]

/-- C1 counterexample: run a fetch cycle (unbounded limit, initial interval 0)
over collections `A` (yields one indicator created at 10) and `B` (yields
nothing), with a prior persisted cursor `3` for `B`.  The cycle rewrites `B`'s
cursor to `10` — the timestamp fetched from `A` — although `B` yielded no
indicator and its prior cursor was `3`, refuting the claim that `B`'s entry
remains at its prior value. -/
theorem C1_cursor_counterexample :
    (match fetch_indicators_command clC1 0 (-1) [("B", some 3)] with
      | Except.ok r => ctxFind r.2.1 "B"
      | Except.error _ => none) = some (some 10)
    ∧ clC1.fetchFn "B" (-1) (some 3) = []
    ∧ (some (10 : Timestamp)) ≠ some (3 : Timestamp)
    ∧ (some (10 : Timestamp)) ≠ some (0 : Timestamp) := by
  exact ⟨rfl, rfl, by decide, by decide⟩

theorem C1_cursor_update_witness :
    fetch_indicators_command clPin 0 5 [] =
      Except.ok (clPin.fetchFn "c" 5 (selectAddedAfter [] "c" 0),
        ctxSet [] "c"
          (if (clPin.fetchFn "c" 5 (selectAddedAfter [] "c" 0)).isEmpty
           then selectAddedAfter [] "c" 0
           else some (maxCreated (clPin.fetchFn "c" 5 (selectAddedAfter [] "c" 0)) 0)),
        (build_iterator clPin 5 (selectAddedAfter [] "c" 0)).2)
    ∧ fetchLoop 0 clC1 [colB] (-1) [("B", some 3)] [] =
        fetchLoop 0 { clC1 with collection_to_fetch := some colB } [] (-1)
          (ctxSet [("B", some 3)] "B" clC1.latest_fetched_indicator_created) [] :=
  ⟨(C1_cursor_update clPin colC 0 5 []).1 rfl rfl,
    (C1_cursor_update clC1 colB 0 (-1) [("B", some 3)]).2.2.2 [] [] (by decide) rfl⟩

/-- C2: For a fetch cycle with integer limit `L ≥ 0`, assuming the client's
`build_iterator` returns at most `l` indicators when given a limit `l ≥ 0`,
the total number of indicators `fetch_indicators_command` returns across all
collections never exceeds `L`. -/
theorem C2_limit_bound (c : Client) (initial : Timestamp) (L : Int) (ctx : Ctx)
    (inds : List Indicator) (ctx2 : Ctx) (c2 : Client)
    (hL : 0 ≤ L)
    (hFetch : ∀ (cid : String) (l : Int) (aa : Option Timestamp), 0 ≤ l →
      ((c.fetchFn cid l aa).length : Int) ≤ l)
    (hRun : fetch_indicators_command c initial L ctx = Except.ok (inds, ctx2, c2)) :
    ((inds.length : Int)) ≤ L := by
  cases hP : c.collection_to_fetch with
  | none =>
    cases hC : c.collections with
    | none =>
      simp [fetch_indicators_command, hP, hC] at hRun
    | some cols =>
      simp only [fetch_indicators_command, hP, hC, Except.ok.injEq] at hRun
      have hlen := fetchLoop_length_le cols initial c L ctx [] hL hFetch
      have h1 : (fetchLoop initial c cols L ctx []).1 = inds := by
        rw [hRun]
      rw [h1] at hlen
      simpa using hlen
  | some col =>
    simp only [fetch_indicators_command, hP, Except.ok.injEq] at hRun
    have h1 : (build_iterator c L (selectAddedAfter ctx col.id initial)).1 = inds :=
      congrArg Prod.fst hRun
    have hbi : (build_iterator c L (selectAddedAfter ctx col.id initial)).1 =
        c.fetchFn col.id L (selectAddedAfter ctx col.id initial) := by
      simp [build_iterator, hP]
    rw [hbi] at h1
    rw [← h1]
    exact hFetch col.id L (selectAddedAfter ctx col.id initial) hL

theorem C2_limit_bound_witness : ((([indA] : List Indicator).length : Int)) ≤ 1 :=
  C2_limit_bound clLim 0 1 [] [indA] [] clLimAfter
    (by decide)
    (fun cid l aa hl => by
      simp only [clLim, List.length_take]
      omega)
    rfl

/-- C3 (amended): The `added_after` bound passed to the client's indicator
fetch is the collection's persisted cursor when one exists — even when that
cursor is earlier than the parsed initial interval — and the parsed initial
interval otherwise (`selectAddedAfter`); the code never takes the later
(maximum) of the two.  Stated both for the pinned-collection branch of
`fetch_indicators_command` and for each head collection of the fetch-all
loop. -/
theorem C3_added_after_bound (c : Client) (col : Collection) (initial : Timestamp)
    (limit : Int) (ctx : Ctx) :
    (c.collection_to_fetch = some col →
      ∃ ctx2 c2, fetch_indicators_command c initial limit ctx =
        Except.ok (c.fetchFn col.id limit (selectAddedAfter ctx col.id initial), ctx2, c2))
    ∧ (∀ (rest : List Collection) (acc : List Indicator), ∃ t,
        (fetchLoop initial c (col :: rest) limit ctx acc).1 =
          acc ++ c.fetchFn col.id limit (selectAddedAfter ctx col.id initial) ++ t) := by
  constructor
  · intro h
    refine ⟨ctxSet ctx col.id
        (match (build_iterator c limit
            (selectAddedAfter ctx col.id initial)).2.latest_fetched_indicator_created with
          | some t => some t
          | none => selectAddedAfter ctx col.id initial),
      (build_iterator c limit (selectAddedAfter ctx col.id initial)).2, ?_⟩
    simp [fetch_indicators_command, build_iterator, h]
  · intro rest acc
    exact fetchLoop_head_prefix initial c col rest limit ctx acc

/-- C3 counterexample: with persisted cursor `1` for the pinned collection and
parsed initial interval `5`, the claim demands the bound `max 1 5 = 5`.  The
client `clPinEarly` yields `indA` exactly at bound `some 1` and nothing at any
other bound; the fetch returns `[indA]`, so the bound passed was the earlier
persisted cursor `some 1`, not the later initial interval — at the claimed
bound the client yields nothing. -/
theorem C3_added_after_counterexample :
    (match fetch_indicators_command clPinEarly 5 10 [("c", some 1)] with
      | Except.ok r => r.1
      | Except.error _ => []) = [indA]
    ∧ clPinEarly.fetchFn "c" 10 (selectAddedAfterSpec [("c", some 1)] "c" 5) = []
    ∧ selectAddedAfter [("c", some 1)] "c" 5 ≠ selectAddedAfterSpec [("c", some 1)] "c" 5 := by
  exact ⟨rfl, rfl, by decide⟩

theorem C3_added_after_bound_witness :
    ∃ ctx2 c2, fetch_indicators_command clPinEarly 5 10 [("c", some 1)] =
      Except.ok (clPinEarly.fetchFn "c" 10 (selectAddedAfter [("c", some 1)] "c" 5),
        ctx2, c2) :=
  (C3_added_after_bound clPinEarly colC 5 10 [("c", some 1)]).1 rfl

/-- C4: In fetch-all mode (no pinned collection), `fetch_indicators_command`
raises the configuration error exactly when the client's collection list is
unresolved, and `get_indicators_command` does the same whenever its limit
argument parses; when a collection list is resolved, neither command raises
that error. -/
theorem C4_no_collections_error (c : Client) (initial : Timestamp) (limit : Int)
    (ctx : Ctx) (raw : RawArg) (limitArg : IntArg) (aa : Option Timestamp) (n : Int)
    (hAll : c.collection_to_fetch = none) (hLa : pythonInt limitArg = some n) :
    (fetch_indicators_command c initial limit ctx = Except.error ERR_NO_COLL ↔
      c.collections = none)
    ∧ (get_indicators_command c raw limitArg aa = Except.error ERR_NO_COLL ↔
      c.collections = none) := by
  constructor
  · cases hC : c.collections with
    | none => simp [fetch_indicators_command, hAll, hC]
    | some cols => simp [fetch_indicators_command, hAll, hC]
  · cases hC : c.collections with
    | none =>
      simp [get_indicators_command, getIndicatorsList, try_parse_integer, hAll, hC, hLa]
    | some cols =>
      simp [get_indicators_command, getIndicatorsList, try_parse_integer, hAll, hC, hLa]

theorem C4_no_collections_error_witness :
    (fetch_indicators_command clNoColl 0 10 [] = Except.error ERR_NO_COLL ↔
      clNoColl.collections = none)
    ∧ (get_indicators_command clNoColl (RawArg.str "false") (IntArg.str "10") none =
        Except.error ERR_NO_COLL ↔ clNoColl.collections = none) :=
  C4_no_collections_error clNoColl 0 10 [] (RawArg.str "false") (IntArg.str "10")
    none 10 rfl rfl

/-- C5: `reset_fetch_command` persists the empty cursor mapping, so every
collection id has no cursor entry afterwards and the `added_after` selection
of the next fetch cycle yields the parsed initial interval for every
collection; in particular the head step of any subsequent fetch-all loop
fetches with the initial interval as its bound. -/
theorem C5_reset_clears_cursors :
    (reset_fetch_command).1 = ([] : Ctx)
    ∧ (∀ (cid : String) (initial : Timestamp),
        ctxFind (reset_fetch_command).1 cid = none
        ∧ selectAddedAfter (reset_fetch_command).1 cid initial = some initial)
    ∧ (∀ (c : Client) (col : Collection) (rest : List Collection) (limit : Int)
        (initial : Timestamp) (acc : List Indicator), ∃ t,
        (fetchLoop initial c (col :: rest) limit (reset_fetch_command).1 acc).1 =
          acc ++ c.fetchFn col.id limit (some initial) ++ t) := by
  refine ⟨rfl, fun cid initial => ⟨rfl, rfl⟩, ?_⟩
  intro c col rest limit initial acc
  have h := fetchLoop_head_prefix initial c col rest limit (reset_fetch_command).1 acc
  simpa [selectAddedAfter, ctxFind, reset_fetch_command] using h

/-- C6: `try_parse_integer` is total: for every input it either returns the
integer Python's `int` produces or fails with the `DemistoException` carrying
the given configuration-error message — a raised `TypeError`/`ValueError`
(`pythonInt` yielding nothing) never propagates.  Concrete instances: a signed
whitespace-padded numeral parses, a non-numeric string, the empty string and
`None` all map to the configuration error, and an integer input is returned
unchanged. -/
theorem C6_try_parse_integer_total (a : IntArg) (msg : String) :
    ((∃ n, pythonInt a = some n ∧ try_parse_integer a msg = Except.ok n)
      ∨ try_parse_integer a msg = Except.error msg)
    ∧ (∀ n, pythonInt a = some n → try_parse_integer a msg = Except.ok n)
    ∧ try_parse_integer (IntArg.str " -42 ") msg = Except.ok (-42)
    ∧ try_parse_integer (IntArg.str "abc") msg = Except.error msg
    ∧ try_parse_integer (IntArg.str "") msg = Except.error msg
    ∧ try_parse_integer IntArg.none_ msg = Except.error msg
    ∧ try_parse_integer (IntArg.int_ 7) msg = Except.ok 7 := by
  refine ⟨?_, ?_, rfl, rfl, rfl, rfl, rfl⟩
  · cases hp : pythonInt a with
    | none => right; simp [try_parse_integer, hp]
    | some n => left; exact ⟨n, rfl, by simp [try_parse_integer, hp]⟩
  · intro n hp
    simp [try_parse_integer, hp]

theorem C6_try_parse_integer_witness :
    try_parse_integer (IntArg.str "12") "m" = Except.ok 12 :=
  (C6_try_parse_integer_total (IntArg.str "12") "m").2.1 12 (by decide)

/-- C7: In raw-output mode (`raw` argument exactly `"true"`),
`get_indicators_command` outputs precisely the `rawJSON` payload field of each
fetched indicator — the `GetIndicatorsOutput.raw` constructor carries nothing
but that list, no value/type/table/context field of the shaped output. -/
theorem C7_raw_mode_outputs (c : Client) (limitArg : IntArg)
    (aa : Option Timestamp) (n : Int) (inds : List Indicator)
    (hLa : pythonInt limitArg = some n)
    (hList : getIndicatorsList c n aa = Except.ok inds) :
    get_indicators_command c (RawArg.str "true") limitArg aa =
      Except.ok (GetIndicatorsOutput.raw (inds.map Indicator.rawJSON)) := by
  simp [get_indicators_command, try_parse_integer, hLa, hList, shapeOutput, rawIsTrue]

theorem C7_raw_mode_outputs_witness :
    get_indicators_command clPin (RawArg.str "true") (IntArg.str "5") none =
      Except.ok (GetIndicatorsOutput.raw ([indA].map Indicator.rawJSON)) :=
  C7_raw_mode_outputs clPin (IntArg.str "5") none 5 [indA] (by decide) rfl

/-- C8: `get_indicators_command` neither reads nor writes the persisted
cursor mapping: the integration context `main` leaves persisted after the
on-demand listing command is exactly the context it started with (likewise for
the collection-listing and connectivity-test commands), while the reset
command rewrites it to the cleared mapping. -/
theorem C8_get_indicators_preserves_ctx (c : Client) (ctx : Ctx) (raw : RawArg)
    (limitArg : IntArg) (aa : Option Timestamp) :
    runCommandCtx c (Command.getIndicators raw limitArg aa) ctx = ctx
    ∧ runCommandCtx c Command.getCollections ctx = ctx
    ∧ runCommandCtx c Command.testModule ctx = ctx
    ∧ runCommandCtx c Command.resetFetch ctx = (reset_fetch_command).1 := by
  exact ⟨rfl, rfl, rfl, rfl⟩

/-- C9: `get_indicators_command` selects raw-output mode iff the `raw`
argument is exactly the string `"true"`: `"True"`, `"TRUE"` and Python
booleans all leave the flag false, and whenever the flag is false the command
takes the shaped output path, which never produces the raw-payload output
form. -/
theorem C9_raw_flag_exact (r : RawArg) (c : Client) (limitArg : IntArg)
    (aa : Option Timestamp) (n : Int) (inds : List Indicator) :
    (rawIsTrue r = true ↔ r = RawArg.str "true")
    ∧ rawIsTrue (RawArg.str "True") = false
    ∧ rawIsTrue (RawArg.str "TRUE") = false
    ∧ rawIsTrue (RawArg.pybool true) = false
    ∧ rawIsTrue (RawArg.pybool false) = false
    ∧ (pythonInt limitArg = some n → getIndicatorsList c n aa = Except.ok inds →
        rawIsTrue r = false →
        get_indicators_command c r limitArg aa = Except.ok (shapeOutput false inds)
        ∧ ∀ l, shapeOutput false inds ≠ GetIndicatorsOutput.raw l) := by
  refine ⟨?_, rfl, rfl, rfl, rfl, ?_⟩
  · cases r with
    | str s => simp [rawIsTrue]
    | pybool b => simp [rawIsTrue]
  · intro hLa hList hRaw
    constructor
    · simp [get_indicators_command, try_parse_integer, hLa, hList, hRaw]
    · intro l
      by_cases hE : inds.isEmpty <;> simp [shapeOutput, hE]

theorem C9_raw_flag_exact_witness :
    get_indicators_command clPin (RawArg.str "false") (IntArg.str "5") none =
      Except.ok (shapeOutput false [indA])
    ∧ ∀ l, shapeOutput false [indA] ≠ GetIndicatorsOutput.raw l :=
  (C9_raw_flag_exact (RawArg.str "false") clPin (IntArg.str "5") none 5 [indA]).2.2.2.2.2
    (by decide) rfl rfl

/-- C10: In shaped (non-raw) mode, when the fetch yields no indicator the
command returns only the human-readable markdown string — `"Found 0
results:"` plus the empty table — with no structured result and no context
outputs; when it yields at least one indicator it returns a `CommandResults`
whose outputs live under the `TAXII2.Indicators` prefix keyed by `value`. -/
theorem C10_shaped_output (c : Client) (r : RawArg) (limitArg : IntArg)
    (aa : Option Timestamp) (n : Int) (inds : List Indicator)
    (hLa : pythonInt limitArg = some n)
    (hRaw : rawIsTrue r = false)
    (hList : getIndicatorsList c n aa = Except.ok inds) :
    (inds = [] →
      get_indicators_command c r limitArg aa =
        Except.ok (GetIndicatorsOutput.markdown
          ("Found 0 results:\n" ++ tableToMarkdown "" [] ["value", "type"])))
    ∧ (inds ≠ [] →
      get_indicators_command c r limitArg aa =
        Except.ok (GetIndicatorsOutput.results
          { outputs_prefix := CONTEXT_PREFIX ++ ".Indicators"
            outputs_key_field := "value"
            outputs := inds
            readable_output := mdOf inds })) := by
  constructor
  · intro h
    subst h
    simp [get_indicators_command, try_parse_integer, hLa, hList, hRaw, shapeOutput]
    rfl
  · intro h
    have hE : inds.isEmpty = false := by
      cases inds with
      | nil => exact absurd rfl h
      | cons x t => rfl
    simp [get_indicators_command, try_parse_integer, hLa, hList, hRaw, shapeOutput, hE]

theorem C10_shaped_output_witness :
    get_indicators_command clEmpty (RawArg.str "false") (IntArg.str "5") none =
      Except.ok (GetIndicatorsOutput.markdown
        ("Found 0 results:\n" ++ tableToMarkdown "" [] ["value", "type"]))
    ∧ get_indicators_command clPin (RawArg.str "false") (IntArg.str "5") none =
      Except.ok (GetIndicatorsOutput.results
        { outputs_prefix := CONTEXT_PREFIX ++ ".Indicators"
          outputs_key_field := "value"
          outputs := [indA]
          readable_output := mdOf [indA] }) :=
  ⟨(C10_shaped_output clEmpty (RawArg.str "false") (IntArg.str "5") none 5 []
      (by decide) rfl rfl).1 rfl,
    (C10_shaped_output clPin (RawArg.str "false") (IntArg.str "5") none 5 [indA]
      (by decide) rfl rfl).2 (by decide)⟩
